import Mathlib

/-! Verification of the background coordination layer of the ai-summary browser
extension: the chunker (src/utils/chunking.ts), the provider adapters
(src/api/gemini.ts, src/api/openai.ts), the model table (src/utils/constants.ts),
the content-addressed cache (src/utils/cache.ts), the prompt resolver and the
per-tab summarize coordinator (src/entrypoints/background.ts).

JavaScript strings are modelled as `List Char` where character-level operations
(splitting, trimming, length checks) matter, and as Lean `String` elsewhere.
JS `string.length` counts UTF-16 code units while `List Char` length counts
code points; the two agree on all characters of the Basic Multilingual Plane,
which covers every string constant appearing in the source.
-/

namespace AISummary

/-- JS whitespace class `\s` (the characters recognised by `String.prototype.trim`
and by `\s` in the split regexes of chunking.ts), identified by code point. -/
def isJsWs (c : Char) : Bool :=
  c.toNat = 0x20 || c.toNat = 0x9 || c.toNat = 0xa || c.toNat = 0xd ||
  c.toNat = 0xb || c.toNat = 0xc || c.toNat = 0xa0 || c.toNat = 0x1680 ||
  (0x2000 ≤ c.toNat && c.toNat ≤ 0x200a) ||
  c.toNat = 0x2028 || c.toNat = 0x2029 || c.toNat = 0x202f ||
  c.toNat = 0x205f || c.toNat = 0x3000 || c.toNat = 0xfeff

/-- Sentence terminator class `[.!?]` from the sentence-split regex in
chunking.ts (`paragraph.split(/[.!?]+\s+/)`). -/
def isSentTerm (c : Char) : Bool := c = '.' || c = '!' || c = '?'

/-- JS `String.prototype.trim`: drop JS whitespace from both ends. -/
def jsTrim (cs : List Char) : List Char :=
  ((cs.dropWhile isJsWs).reverse.dropWhile isJsWs).reverse

theorem length_dropWhile_le (p : Char → Bool) (l : List Char) :
    (l.dropWhile p).length ≤ l.length := by
  induction l with
  | nil => simp [List.dropWhile]
  | cons c rest ih =>
    by_cases h : p c
    · simp [List.dropWhile, h]; omega
    · simp [List.dropWhile, h]

/-- Embeds `content.split(/\n\n+/)` from chunking.ts: every maximal run of two or
more newline characters is a separator (leftmost, greedy). -/
def paragraphSplitAux : List Char → List Char → List (List Char)
  | [], acc => [acc.reverse]
  | '\n' :: '\n' :: rest, acc =>
      acc.reverse :: paragraphSplitAux (rest.dropWhile (· = '\n')) []
  | c :: rest, acc => paragraphSplitAux rest (c :: acc)
termination_by cs _ => cs.length
decreasing_by
  · have := length_dropWhile_le (· = '\n') rest
    simp; omega
  · simp

def paragraphSplit (cs : List Char) : List (List Char) := paragraphSplitAux cs []

/-- Embeds `paragraph.split(/[.!?]+\s+/)` from chunking.ts: a separator is a maximal
run of sentence terminators immediately followed by a maximal run of JS
whitespace (leftmost, greedy); a terminator run not followed by whitespace is
ordinary text. -/
def sentenceSplitAux : List Char → List Char → List (List Char)
  | [], acc => [acc.reverse]
  | c :: rest, acc =>
      if isSentTerm c then
        let run := rest.takeWhile isSentTerm
        let rest₁ := rest.dropWhile isSentTerm
        if rest₁.head?.any isJsWs then
          acc.reverse :: sentenceSplitAux (rest₁.dropWhile isJsWs) []
        else
          sentenceSplitAux rest₁ (run.reverse ++ c :: acc)
      else
        sentenceSplitAux rest (c :: acc)
termination_by cs _ => cs.length
decreasing_by
  · have h1 := length_dropWhile_le isSentTerm rest
    have h2 := length_dropWhile_le isJsWs (rest.dropWhile isSentTerm)
    simp; omega
  · have h1 := length_dropWhile_le isSentTerm rest
    simp; omega
  · simp

def sentenceSplit (cs : List Char) : List (List Char) := sentenceSplitAux cs []

/-- Embeds `if (currentChunk) { chunks.push(currentChunk.trim()); }` — the empty
string is falsy in JS, so a non-empty running chunk is trimmed and appended
and an empty one is discarded. -/
def pushIf (chunks : List (List Char)) (cur : List Char) : List (List Char) :=
  if cur = [] then chunks else chunks ++ [jsTrim cur]

/-- Inner loop of `splitIntoChunks` over the sentences of an oversized
paragraph. State `(chunks, cur)` is `(chunks, currentChunk)` of the source.
On overflow (`(currentChunk + sentence).length > maxCharsPerChunk`) the
running chunk is pushed (if non-empty) and the sentence becomes the new
running chunk; otherwise the sentence is appended, with a `". "` separator
when the running chunk is non-empty (note the separator is not counted by
the overflow check). -/
def sentenceLoop (maxChars : Nat) :
    List (List Char) → List (List Char) → List Char → List (List Char) × List Char
  | [], chunks, cur => (chunks, cur)
  | s :: rest, chunks, cur =>
      if (cur ++ s).length > maxChars then
        sentenceLoop maxChars rest (pushIf chunks cur) s
      else
        sentenceLoop maxChars rest chunks
          (if cur = [] then s else cur ++ '.' :: ' ' :: s)

/-- Outer loop of `splitIntoChunks` over paragraphs. A paragraph longer than
`maxCharsPerChunk` flushes the running chunk and is processed sentence by
sentence (`currentChunk = ''` before the inner loop); otherwise the paragraph
is greedily packed, with the overflow check `(currentChunk + '\n\n' +
paragraph).length > maxCharsPerChunk` always counting the two-newline
separator even when the running chunk is empty. -/
def paragraphLoop (maxChars : Nat) :
    List (List Char) → List (List Char) → List Char → List (List Char) × List Char
  | [], chunks, cur => (chunks, cur)
  | p :: rest, chunks, cur =>
      if p.length > maxChars then
        let r := sentenceLoop maxChars (sentenceSplit p) (pushIf chunks cur) []
        paragraphLoop maxChars rest r.1 r.2
      else
        if (cur ++ '\n' :: '\n' :: p).length > maxChars then
          paragraphLoop maxChars rest (pushIf chunks cur) p
        else
          paragraphLoop maxChars rest chunks
            (if cur = [] then p else cur ++ '\n' :: '\n' :: p)

/-- Fallback of `splitIntoChunks`: fixed-size slicing
(`content.slice(i, i + chunkSize)` in steps of `chunkSize`). With
`chunkSize = 0` the JS loop never terminates; that case is modelled as the
empty result and is excluded by hypothesis wherever a theorem could reach
the fallback. -/
def sliceLoop (size : Nat) (cs : List Char) : List (List Char) :=
  if cs = [] then []
  else if size = 0 then []
  else cs.take size :: sliceLoop size (cs.drop size)
termination_by cs.length
decreasing_by
  rename_i h1 h2
  have : 0 < cs.length := by
    cases cs with
    | nil => exact absurd rfl h1
    | cons a t => simp
  simp [List.length_drop]
  omega

/-- Embeds `splitIntoChunks(content, maxTokens)` from src/utils/chunking.ts.
The token estimator (`estimateTokenCount`, i.e. `encode(text).length` from
the external gpt-tokenizer package) is not part of this repository and is
abstracted as the parameter `est`. -/
def splitIntoChunks (est : List Char → Nat) (content : List Char)
    (maxTokens : Nat) : List (List Char) :=
  if est content ≤ maxTokens then [content]
  else
    let maxCharsPerChunk := maxTokens * 4
    let r := paragraphLoop maxCharsPerChunk (paragraphSplit content) [] []
    let chunks := pushIf r.1 r.2
    if chunks = [] then sliceLoop maxCharsPerChunk content else chunks

/-! Section: content-addressed cache (src/utils/cache.ts).

The cache keys `browser.storage.local`; the store is modelled as an
association list from key strings to entries, with first-match lookup,
overwrite-or-append set, and key removal — the observable behaviour of the
extension storage API used by CacheManager. -/

/-- Association-list lookup (`result[key]`, `Map.get`). -/
def alookup {κ α : Type} [DecidableEq κ] : List (κ × α) → κ → Option α
  | [], _ => none
  | (k₁, v) :: rest, k => if k₁ = k then some v else alookup rest k

/-- Association-list store (`browser.storage.local.set({ [key]: entry })`):
overwrite the existing binding or append a new one. -/
def aset {κ α : Type} [DecidableEq κ] : List (κ × α) → κ → α → List (κ × α)
  | [], k, v => [(k, v)]
  | (k₁, v₁) :: rest, k, v =>
      if k₁ = k then (k, v) :: rest else (k₁, v₁) :: aset rest k v

/-- Association-list removal (`browser.storage.local.remove(key)`). -/
def aremove {κ α : Type} [DecidableEq κ] (l : List (κ × α)) (k : κ) :
    List (κ × α) :=
  l.filter (fun p => !(decide (p.1 = k)))

/-- Embeds `ToInt32` as performed by the JS bitwise operators in `simpleHash`
(`hash & hash` and the shift): reduce modulo 2^32 into [-2^31, 2^31). -/
def toInt32 (n : Int) : Int :=
  let m := n % 4294967296
  if m < 2147483648 then m else m - 4294967296

/-- One step of `simpleHash`: `hash = ((hash << 5) - hash) + char;
hash = hash & hash`. The shift operates on int32 (wrapping), the
subtraction and addition are exact (magnitudes stay below 2^53), and the
final `& hash` truncates back to int32. `charCodeAt` is modelled by the
code point, which coincides for characters of the BMP. -/
def simpleHashStep (hash : Int) (c : Char) : Int :=
  toInt32 (toInt32 (hash * 32) - hash + c.toNat)

/-- Digit character for `Number.prototype.toString(36)`: 0-9 then a-z. -/
def base36Digit (n : Nat) : Char :=
  if n < 10 then Char.ofNat (48 + n) else Char.ofNat (87 + n)

/-- Base-36 digits of `n`, most significant first, with explicit fuel
(structural recursion so that concrete keys evaluate); `fuel = n + 1`
always suffices because the digit count of `n` is at most `n + 1`. -/
def natToBase36Aux : Nat → Nat → List Char
  | 0, _ => []
  | fuel + 1, n => if n = 0 then [] else
      natToBase36Aux fuel (n / 36) ++ [base36Digit (n % 36)]

/-- Embeds `Math.abs(hash).toString(36)` for a natural number. -/
def natToBase36 (n : Nat) : String :=
  if n = 0 then "0" else String.mk (natToBase36Aux (n + 1) n)

/-- Embeds `simpleHash` from src/utils/cache.ts. -/
def simpleHash (s : String) : String :=
  natToBase36 (s.data.foldl simpleHashStep 0).natAbs

/-- Embeds `CACHE_EXPIRATION_MS = 24 * 60 * 60 * 1000` from src/utils/constants.ts. -/
def CACHE_EXPIRATION_MS : Int := 24 * 60 * 60 * 1000

/-- A persisted cache entry (`CacheEntry` of src/utils/cache.ts). -/
structure CacheEntry where
  summary : String
  timestamp : Int
  url : String
  contentHash : String
deriving DecidableEq

abbrev CacheStore : Type := List (String × CacheEntry)

/-- Embeds `CacheManager.generateKey(url, promptId?)`:
`CACHE_KEY_PREFIX + simpleHash(url) + "_" + (promptId || 'default')`
(an absent or empty prompt id falls back to the literal `default`). -/
def CacheManager_generateKey (url : String) (promptId : Option String) : String :=
  "ai_summary_cache_" ++ simpleHash url ++ "_" ++
    (match promptId with
     | some p => if p = "" then "default" else p
     | none => "default")

/-- Embeds `CacheManager.get(url, promptId)` from src/utils/cache.ts: absent key →
null; expired entry (`now - entry.timestamp > CACHE_EXPIRATION_MS`) →
remove the key and return null; otherwise the stored summary. Returns the
response together with the store after any removal side effect. -/
def CacheManager_get (store : CacheStore) (now : Int) (url : String)
    (promptId : Option String) : Option String × CacheStore :=
  match alookup store (CacheManager_generateKey url promptId) with
  | none => (none, store)
  | some entry =>
      if now - entry.timestamp > CACHE_EXPIRATION_MS then
        (none, aremove store (CacheManager_generateKey url promptId))
      else
        (some entry.summary, store)

/-- Embeds `CacheManager.set(url, summary, promptId)` from src/utils/cache.ts:
store a fresh entry under the derived key (contentHash kept empty for
backwards compatibility, as in the source). -/
def CacheManager_set (store : CacheStore) (now : Int) (url : String)
    (summary : String) (promptId : Option String) : CacheStore :=
  aset store (CacheManager_generateKey url promptId)
    ⟨summary, now, url, ""⟩

theorem alookup_aremove {κ α : Type} [DecidableEq κ] (l : List (κ × α)) (k : κ) :
    alookup (aremove l k) k = none := by
  induction l with
  | nil => rfl
  | cons p rest ih =>
    unfold aremove at ih ⊢
    rw [List.filter_cons]
    by_cases h : p.1 = k
    · rw [if_neg (by simp [h])]
      exact ih
    · rw [if_pos (by simp [h])]
      rcases p with ⟨k₁, v⟩
      simp only at h
      simp only [alookup, if_neg h]
      exact ih

/-- Claim C2: a `CacheManager.get` lookup never returns a summary from an
entry older than 24 hours (86,400,000 ms): if the stored entry under the
derived key is expired, `get` returns absent and removes the entry from
storage; and any summary `get` does return comes from an entry within the
TTL. -/
theorem claim_C2_cache_ttl (store : CacheStore) (now : Int) (url : String)
    (promptId : Option String) (entry : CacheEntry)
    (hlook : alookup store (CacheManager_generateKey url promptId) = some entry) :
    (now - entry.timestamp > CACHE_EXPIRATION_MS →
      (CacheManager_get store now url promptId).1 = none ∧
      alookup (CacheManager_get store now url promptId).2
        (CacheManager_generateKey url promptId) = none) ∧
    (∀ s, (CacheManager_get store now url promptId).1 = some s →
      now - entry.timestamp ≤ CACHE_EXPIRATION_MS ∧ s = entry.summary) := by
  have hg : CacheManager_get store now url promptId
      = if now - entry.timestamp > CACHE_EXPIRATION_MS
        then (none, aremove store (CacheManager_generateKey url promptId))
        else (some entry.summary, store) := by
    unfold CacheManager_get
    rw [hlook]
  constructor
  · intro hexp
    rw [hg, if_pos hexp]
    exact ⟨rfl, alookup_aremove store _⟩
  · intro s hs
    rw [hg] at hs
    by_cases hexp : now - entry.timestamp > CACHE_EXPIRATION_MS
    · rw [if_pos hexp] at hs
      exact absurd hs (by simp)
    · rw [if_neg hexp] at hs
      simp only [Option.some.injEq] at hs
      exact ⟨by omega, hs.symm⟩

theorem claim_C2_cache_ttl_witness :
    alookup [("ai_summary_cache_2p_p1", (⟨"S", 0, "a", ""⟩ : CacheEntry))]
        (CacheManager_generateKey "a" (some "p1"))
      = some ⟨"S", 0, "a", ""⟩ ∧
    ((86400001 : Int) - 0 > CACHE_EXPIRATION_MS →
      (CacheManager_get [("ai_summary_cache_2p_p1", ⟨"S", 0, "a", ""⟩)]
          86400001 "a" (some "p1")).1 = none ∧
      alookup (CacheManager_get [("ai_summary_cache_2p_p1", ⟨"S", 0, "a", ""⟩)]
          86400001 "a" (some "p1")).2
        (CacheManager_generateKey "a" (some "p1")) = none) :=
  ⟨by decide,
   (claim_C2_cache_ttl [("ai_summary_cache_2p_p1", ⟨"S", 0, "a", ""⟩)]
      86400001 "a" (some "p1") ⟨"S", 0, "a", ""⟩ (by decide)).1⟩

/-! Section: model table (src/utils/constants.ts) and adapter token budgets.

A JS object literal is modelled by its declared numeric members as an
association list, so that a member access on a name the literal does not
declare yields `none` (JS `undefined`), exactly as the engine evaluates it. -/

/-- One entry of the MODELS table: a display name plus the numeric members
declared by the object literal (`maxInput` and `maxOutput`). -/
structure ModelEntry where
  name : String
  fields : List (String × Nat)
deriving DecidableEq

/-- Embeds `MODELS.GEMINI` from src/utils/constants.ts. -/
def MODELS_GEMINI : List (String × ModelEntry) :=
  [("gemini-2.5-flash",
    ⟨"Gemini 2.5 Flash", [("maxInput", 1000000), ("maxOutput", 8192)]⟩),
   ("gemini-3-flash-preview",
    ⟨"Gemini 3 Flash Preview", [("maxInput", 1000000), ("maxOutput", 8192)]⟩),
   ("gemini-3-pro-preview",
    ⟨"Gemini 3 Pro Preview", [("maxInput", 2000000), ("maxOutput", 8192)]⟩)]

/-- Embeds `MODELS.OPENAI` from src/utils/constants.ts. -/
def MODELS_OPENAI : List (String × ModelEntry) :=
  [("gpt-4o", ⟨"GPT-4o", [("maxInput", 128000), ("maxOutput", 16384)]⟩),
   ("gpt-4o-mini", ⟨"GPT-4o Mini", [("maxInput", 128000), ("maxOutput", 16384)]⟩),
   ("gpt-4-turbo", ⟨"GPT-4 Turbo", [("maxInput", 128000), ("maxOutput", 4096)]⟩)]

/-- JS member access on a model entry (`modelConfig?.someField`): `none` when
the object does not declare the member. -/
def jsNumField (e : ModelEntry) (f : String) : Option Nat := alookup e.fields f

/-- The chunking budget computed in `GeminiAPI.summarize`
(src/api/gemini.ts lines 81-85):
`contextWindow = modelConfig?.contextWindow || 1000000;
maxInputTokens = Math.floor(contextWindow * 0.9)`.
The MODELS entries declare `maxInput`/`maxOutput` but no `contextWindow`
member, so the access yields undefined and the `|| 1000000` fallback applies
to every model. `Math.floor(x * 0.9)` equals `x * 9 / 10` in exact
arithmetic for every value reachable here (the double rounding of `x * 0.9`
lands on the exact integer for these magnitudes). -/
def geminiMaxInputTokens (model : String) : Nat :=
  let modelConfig := alookup MODELS_GEMINI model
  let contextWindow :=
    (modelConfig.bind (fun c => jsNumField c "contextWindow")).getD 1000000
  contextWindow * 9 / 10

/-- The chunking budget computed in `OpenAIAPI.summarize`
(src/api/openai.ts lines 212-216): same shape with fallback 128000. -/
def openaiMaxInputTokens (model : String) : Nat :=
  let modelConfig := alookup MODELS_OPENAI model
  let contextWindow :=
    (modelConfig.bind (fun c => jsNumField c "contextWindow")).getD 128000
  contextWindow * 9 / 10

/-- Claim C6 evaluated at the failing input: the claim says the budget for
gemini-3-pro-preview is floor(0.9 × 2,000,000) = 1,800,000, but the code
reads the nonexistent `contextWindow` member of the MODELS entry (the table
declares `maxInput`), so the `|| 1000000` fallback fires and the budget is
900,000 for every Gemini model. The OpenAI budgets coincide with the claim
(115,200) only because the fallback 128,000 happens to equal every OpenAI
model's advertised `maxInput`. -/
theorem claim_C6_budget_bug :
    geminiMaxInputTokens "gemini-3-pro-preview" = 900000 ∧
    (alookup MODELS_GEMINI "gemini-3-pro-preview").bind
        (fun c => jsNumField c "contextWindow") = none ∧
    (alookup MODELS_GEMINI "gemini-3-pro-preview").bind
        (fun c => jsNumField c "maxInput") = some 2000000 ∧
    2000000 * 9 / 10 = 1800000 ∧
    geminiMaxInputTokens "gemini-2.5-flash" = 900000 ∧
    geminiMaxInputTokens "gemini-3-flash-preview" = 900000 ∧
    openaiMaxInputTokens "gpt-4o" = 115200 ∧
    openaiMaxInputTokens "gpt-4o-mini" = 115200 ∧
    openaiMaxInputTokens "gpt-4-turbo" = 115200 := by
  decide

/-- Characters the coverage property tracks: everything that is neither JS
whitespace nor a sentence terminator. Sentence terminators are excluded
because the sentence-split regex `[.!?]+\s+` consumes them. -/
def keepChar (c : Char) : Bool := !(isJsWs c) && !(isSentTerm c)

theorem keepChar_eq_false_of_ws {c : Char} (h : isJsWs c = true) :
    keepChar c = false := by
  simp [keepChar, h]

theorem keepChar_eq_false_of_term {c : Char} (h : isSentTerm c = true) :
    keepChar c = false := by
  simp [keepChar, h]

theorem filter_keep_dropWhile (p : Char → Bool)
    (hp : ∀ c, p c = true → keepChar c = false) (l : List Char) :
    (l.dropWhile p).filter keepChar = l.filter keepChar := by
  induction l with
  | nil => rfl
  | cons c rest ih =>
    by_cases h : p c
    · rw [List.dropWhile_cons_of_pos h, ih, List.filter_cons_of_neg]
      simp [hp c h]
    · rw [List.dropWhile_cons_of_neg h]

theorem filter_keep_takeWhile (p : Char → Bool)
    (hp : ∀ c, p c = true → keepChar c = false) (l : List Char) :
    (l.takeWhile p).filter keepChar = [] := by
  induction l with
  | nil => rfl
  | cons c rest ih =>
    by_cases h : p c
    · rw [List.takeWhile_cons_of_pos h, List.filter_cons_of_neg]
      · exact ih
      · simp [hp c h]
    · rw [List.takeWhile_cons_of_neg h]; rfl

theorem filter_keep_jsTrim (l : List Char) :
    (jsTrim l).filter keepChar = l.filter keepChar := by
  have hws : ∀ c, isJsWs c = true → keepChar c = false :=
    fun c h => keepChar_eq_false_of_ws h
  simp only [jsTrim, List.filter_reverse, filter_keep_dropWhile isJsWs hws,
    List.reverse_reverse]

theorem jsTrim_length_le (l : List Char) : (jsTrim l).length ≤ l.length := by
  have h1 := length_dropWhile_le isJsWs l
  have h2 := length_dropWhile_le isJsWs (l.dropWhile isJsWs).reverse
  simp only [jsTrim, List.length_reverse]
  simp only [List.length_reverse] at h2
  omega

theorem paragraphSplitAux_filter (cs acc : List Char) :
    ((paragraphSplitAux cs acc).map (·.filter keepChar)).flatten
      = (acc.reverse ++ cs).filter keepChar := by
  induction cs, acc using paragraphSplitAux.induct with
  | case1 acc => simp [paragraphSplitAux]
  | case2 rest acc ih =>
    rw [paragraphSplitAux]
    have hnl : ∀ c : Char, (decide (c = '\n')) = true → keepChar c = false := by
      intro c hc
      simp at hc
      subst hc
      decide
    have hnl2 : keepChar '\n' = false := by decide
    simp only [List.map_cons, List.flatten_cons, ih, List.reverse_nil,
      List.nil_append, filter_keep_dropWhile _ hnl, List.filter_append]
    simp [List.filter_cons, hnl2]
  | case3 c rest acc h ih =>
    rw [paragraphSplitAux.eq_3 _ _ _ h, ih]
    simp

theorem paragraphSplit_filter (cs : List Char) :
    ((paragraphSplit cs).map (·.filter keepChar)).flatten
      = cs.filter keepChar := by
  simpa using paragraphSplitAux_filter cs []

theorem sentenceSplitAux_filter (cs acc : List Char) :
    ((sentenceSplitAux cs acc).map (·.filter keepChar)).flatten
      = (acc.reverse ++ cs).filter keepChar := by
  have hterm' : ∀ d : Char, isSentTerm d = true → keepChar d = false :=
    fun d h => keepChar_eq_false_of_term h
  have hws' : ∀ d : Char, isJsWs d = true → keepChar d = false :=
    fun d h => keepChar_eq_false_of_ws h
  induction cs, acc using sentenceSplitAux.induct with
  | case1 acc => simp [sentenceSplitAux]
  | case2 c rest acc hterm rest₁ hcond ih =>
    rw [sentenceSplitAux.eq_2]
    simp only [hterm, if_pos, hcond, if_pos]
    simp only [List.map_cons, List.flatten_cons, ih, List.reverse_nil,
      List.nil_append, filter_keep_dropWhile _ hws',
      filter_keep_dropWhile _ hterm', List.filter_append, List.filter_cons,
      hterm' c hterm]
    simp
  | case3 c rest acc hterm run rest₁ hcond ih =>
    rw [sentenceSplitAux.eq_2]
    simp only [hterm, if_pos, hcond, Bool.false_eq_true, if_false]
    rw [ih]
    simp only [List.reverse_append, List.reverse_reverse, List.reverse_cons]
    have heq : run ++ rest₁ = rest := List.takeWhile_append_dropWhile isSentTerm rest
    rw [List.append_assoc (acc.reverse ++ [c]), heq]
    simp [List.filter_append, List.append_assoc]
  | case4 c rest acc hterm ih =>
    rw [sentenceSplitAux.eq_2, if_neg hterm, ih]
    simp

theorem sentenceSplit_filter (cs : List Char) :
    ((sentenceSplit cs).map (·.filter keepChar)).flatten
      = cs.filter keepChar := by
  simpa using sentenceSplitAux_filter cs []

theorem pushIf_filter (chunks : List (List Char)) (cur : List Char) :
    ((pushIf chunks cur).map (·.filter keepChar)).flatten
      = (chunks.map (·.filter keepChar)).flatten ++ cur.filter keepChar := by
  unfold pushIf
  by_cases h : cur = []
  · simp [h]
  · simp [h, filter_keep_jsTrim]

theorem sentenceLoop_filter (maxChars : Nat) (sents chunks : List (List Char))
    (cur : List Char) :
    ((sentenceLoop maxChars sents chunks cur).1.map (·.filter keepChar)).flatten
        ++ (sentenceLoop maxChars sents chunks cur).2.filter keepChar
      = (chunks.map (·.filter keepChar)).flatten ++ cur.filter keepChar
        ++ (sents.map (·.filter keepChar)).flatten := by
  induction sents generalizing chunks cur with
  | nil => simp [sentenceLoop]
  | cons s rest ih =>
    rw [sentenceLoop]
    by_cases h : (cur ++ s).length > maxChars
    · rw [if_pos h, ih, pushIf_filter]
      simp [List.append_assoc]
    · rw [if_neg h, ih]
      by_cases hc : cur = []
      · simp [hc]
      · simp only [hc, if_neg, ite_false]
        have : keepChar '.' = false := by decide
        simp [List.filter_append, List.filter_cons, this, List.append_assoc]
        decide

theorem paragraphLoop_filter (maxChars : Nat) (paras chunks : List (List Char))
    (cur : List Char) :
    ((paragraphLoop maxChars paras chunks cur).1.map (·.filter keepChar)).flatten
        ++ (paragraphLoop maxChars paras chunks cur).2.filter keepChar
      = (chunks.map (·.filter keepChar)).flatten ++ cur.filter keepChar
        ++ (paras.map (·.filter keepChar)).flatten := by
  induction paras generalizing chunks cur with
  | nil => simp [paragraphLoop]
  | cons p rest ih =>
    rw [paragraphLoop]
    by_cases h1 : p.length > maxChars
    · rw [if_pos h1, ih]
      have hs := sentenceLoop_filter maxChars (sentenceSplit p) (pushIf chunks cur) []
      rw [hs, pushIf_filter, sentenceSplit_filter]
      simp [List.append_assoc]
    · rw [if_neg h1]
      by_cases h2 : (cur ++ '\n' :: '\n' :: p).length > maxChars
      · rw [if_pos h2, ih, pushIf_filter]
        simp [List.append_assoc]
      · rw [if_neg h2, ih]
        by_cases hc : cur = []
        · simp [hc]
        · have hnl : keepChar '\n' = false := by decide
          simp [hc, List.filter_append, List.filter_cons, hnl, List.append_assoc]

theorem sliceLoop_flatten (size : Nat) (cs : List Char) (h : size ≠ 0) :
    (sliceLoop size cs).flatten = cs := by
  induction cs using sliceLoop.induct size with
  | case1 => rw [sliceLoop]; simp
  | case2 cs hnil hz => exact absurd hz h
  | case3 cs hnil hz ih =>
    rw [sliceLoop, if_neg hnil, if_neg hz, List.flatten_cons, ih,
      List.take_append_drop]

/-- Claim C4: if the estimated token count of the content is within the
budget, `splitIntoChunks` returns exactly the one-element sequence holding
the unchanged input (the fast path of chunking.ts). -/
theorem claim_C4_split_noop (est : List Char → Nat) (content : List Char)
    (maxTokens : Nat) (h : est content ≤ maxTokens) :
    splitIntoChunks est content maxTokens = [content] := by
  simp [splitIntoChunks, h]

theorem claim_C4_split_noop_witness :
    (fun s : List Char => s.length) "abc".data ≤ 5 ∧
    splitIntoChunks (fun s : List Char => s.length) "abc".data 5 = ["abc".data] :=
  ⟨by decide, claim_C4_split_noop _ _ _ (by decide)⟩

/-- Claim C7 as amended: for every input, every estimator and every budget
maxTokens ≥ 1 (with budget 0 the JS fallback loop diverges), the
concatenation of the returned chunks reproduces, in order and with
multiplicity, exactly those characters of the input that are neither JS
whitespace nor one of the sentence terminators '.', '!', '?'. Terminator
characters may be consumed by the sentence-split regex; no other
non-whitespace character is lost. -/
theorem claim_C7_amended (est : List Char → Nat) (content : List Char)
    (maxTokens : Nat) (h : 0 < maxTokens) :
    ((splitIntoChunks est content maxTokens).flatten).filter keepChar
      = content.filter keepChar := by
  unfold splitIntoChunks
  by_cases hfit : est content ≤ maxTokens
  · simp [hfit]
  · rw [if_neg hfit]
    simp only []
    by_cases hempty :
        pushIf (paragraphLoop (maxTokens * 4) (paragraphSplit content) [] []).1
          (paragraphLoop (maxTokens * 4) (paragraphSplit content) [] []).2 = []
    · rw [if_pos hempty, sliceLoop_flatten _ _ (by omega)]
    · rw [if_neg hempty, List.filter_flatten, pushIf_filter]
      have hp := paragraphLoop_filter (maxTokens * 4) (paragraphSplit content) [] []
      simp only [List.map_nil, List.flatten_nil, List.filter_nil,
        List.nil_append] at hp
      rw [hp, paragraphSplit_filter]

theorem claim_C7_amended_witness :
    0 < 1 ∧
    ((splitIntoChunks (fun s : List Char => s.length) "a!? b".data 1).flatten).filter
        keepChar
      = ("a!? b".data).filter keepChar :=
  ⟨Nat.one_pos, claim_C7_amended _ _ _ Nat.one_pos⟩

/-- Claim C7 is false as stated: for the input "a!? b" with budget 1
(estimator = character count, 5 > 1), the chunker returns the single chunk
"a. b"; the non-whitespace character '!' of the input does not occur in the
concatenation of the returned chunks. The sentence-split regex `[.!?]+\s+`
consumed it. -/
theorem claim_C7_counterexample :
    splitIntoChunks (fun s : List Char => s.length) "a!? b".data 1
      = ["a. b".data] ∧
    ("a!? b".data).count '!' = 1 ∧
    ("a. b".data).count '!' = 0 ∧
    isJsWs '!' = false := by
  refine ⟨?_, by decide, by decide, by decide⟩
  simp only [splitIntoChunks]
  norm_num
  simp [paragraphSplit, paragraphSplitAux, sentenceSplit, sentenceSplitAux,
    paragraphLoop, sentenceLoop, pushIf, jsTrim, sliceLoop, isSentTerm, isJsWs]

theorem mem_pushIf {chunks : List (List Char)} {cur c : List Char}
    (h : c ∈ pushIf chunks cur) : c ∈ chunks ∨ c = jsTrim cur := by
  unfold pushIf at h
  by_cases hc : cur = []
  · rw [if_pos hc] at h; exact Or.inl h
  · rw [if_neg hc] at h
    rcases List.mem_append.mp h with h1 | h1
    · exact Or.inl h1
    · exact Or.inr (List.mem_singleton.mp h1)

theorem mem_sliceLoop_length {size : Nat} {cs c : List Char}
    (h : c ∈ sliceLoop size cs) : c.length ≤ size := by
  induction cs using sliceLoop.induct size with
  | case1 => rw [sliceLoop] at h; simp at h
  | case2 cs hnil hz => rw [sliceLoop, if_neg hnil, if_pos hz] at h; simp at h
  | case3 cs hnil hz ih =>
    rw [sliceLoop, if_neg hnil, if_neg hz] at h
    rcases List.mem_cons.mp h with h1 | h1
    · rw [h1]; exact List.length_take_le size cs
    · exact ih h1

theorem sentenceLoop_bound (maxChars : Nat) (P : List Char → Prop)
    (S sents chunks : List (List Char)) (cur : List Char)
    (hsub : ∀ s ∈ sents, s ∈ S)
    (hPtrim : ∀ x : List Char,
      (x.length ≤ maxChars + 2 ∨ ∃ s ∈ S, x = s ∧ maxChars < s.length) →
        P (jsTrim x))
    (hchunks : ∀ c ∈ chunks, P c)
    (hcur : cur.length ≤ maxChars + 2 ∨ ∃ s ∈ S, cur = s ∧ maxChars < s.length) :
    (∀ c ∈ (sentenceLoop maxChars sents chunks cur).1, P c) ∧
      ((sentenceLoop maxChars sents chunks cur).2.length ≤ maxChars + 2 ∨
        ∃ s ∈ S, (sentenceLoop maxChars sents chunks cur).2 = s ∧
          maxChars < s.length) := by
  induction sents generalizing chunks cur with
  | nil => exact ⟨hchunks, hcur⟩
  | cons s rest ih =>
    have hsub' : ∀ t ∈ rest, t ∈ S := fun t ht => hsub t (List.mem_cons_of_mem s ht)
    have hsS : s ∈ S := hsub s (List.mem_cons_self s rest)
    rw [sentenceLoop]
    by_cases hov : (cur ++ s).length > maxChars
    · rw [if_pos hov]
      refine ih _ _ hsub' ?_ ?_
      · intro c hc
        rcases mem_pushIf hc with h1 | h1
        · exact hchunks c h1
        · rw [h1]; exact hPtrim cur hcur
      · by_cases hs : s.length ≤ maxChars + 2
        · exact Or.inl hs
        · exact Or.inr ⟨s, hsS, rfl, by omega⟩
    · rw [if_neg hov]
      have hle : cur.length + s.length ≤ maxChars := by
        simp only [List.length_append] at hov; omega
      refine ih _ _ hsub' hchunks ?_
      by_cases hc : cur = []
      · rw [if_pos hc]
        exact Or.inl (by omega)
      · rw [if_neg hc]
        refine Or.inl ?_
        simp only [List.length_append, List.length_cons]
        omega

theorem paragraphLoop_bound (maxChars : Nat)
    (PS paras chunks : List (List Char)) (cur : List Char)
    (hsub : ∀ p ∈ paras, p ∈ PS)
    (hchunks : ∀ c ∈ chunks, c.length ≤ maxChars + 2 ∨
      ∃ p ∈ PS, maxChars < p.length ∧
        ∃ s ∈ sentenceSplit p, c = jsTrim s ∧ maxChars < s.length)
    (hcur : cur.length ≤ maxChars + 2 ∨
      ∃ p ∈ PS, maxChars < p.length ∧
        ∃ s ∈ sentenceSplit p, cur = s ∧ maxChars < s.length) :
    (∀ c ∈ (paragraphLoop maxChars paras chunks cur).1,
      c.length ≤ maxChars + 2 ∨
      ∃ p ∈ PS, maxChars < p.length ∧
        ∃ s ∈ sentenceSplit p, c = jsTrim s ∧ maxChars < s.length) ∧
    ((paragraphLoop maxChars paras chunks cur).2.length ≤ maxChars + 2 ∨
      ∃ p ∈ PS, maxChars < p.length ∧
        ∃ s ∈ sentenceSplit p, (paragraphLoop maxChars paras chunks cur).2 = s ∧
          maxChars < s.length) := by
  induction paras generalizing chunks cur with
  | nil => exact ⟨hchunks, hcur⟩
  | cons p rest ih =>
    have hsub' : ∀ t ∈ rest, t ∈ PS := fun t ht => hsub t (List.mem_cons_of_mem p ht)
    have hpPS : p ∈ PS := hsub p (List.mem_cons_self p rest)
    have htrimP : ∀ x : List Char,
        (x.length ≤ maxChars + 2 ∨
          ∃ q ∈ PS, maxChars < q.length ∧
            ∃ s ∈ sentenceSplit q, x = s ∧ maxChars < s.length) →
        ((jsTrim x).length ≤ maxChars + 2 ∨
          ∃ q ∈ PS, maxChars < q.length ∧
            ∃ s ∈ sentenceSplit q, jsTrim x = jsTrim s ∧ maxChars < s.length) := by
      intro x hx
      rcases hx with hx | ⟨q, hq, hql, s, hs, hxs, hsl⟩
      · exact Or.inl (le_trans (jsTrim_length_le x) hx)
      · exact Or.inr ⟨q, hq, hql, s, hs, by rw [hxs], hsl⟩
    rw [paragraphLoop]
    by_cases h1 : p.length > maxChars
    · rw [if_pos h1]
      have hsl := sentenceLoop_bound maxChars
        (fun c => c.length ≤ maxChars + 2 ∨
          ∃ q ∈ PS, maxChars < q.length ∧
            ∃ s ∈ sentenceSplit q, c = jsTrim s ∧ maxChars < s.length)
        (sentenceSplit p) (sentenceSplit p) (pushIf chunks cur) []
        (fun s hs => hs)
        ?_ ?_ ?_
      · refine ih _ _ hsub' hsl.1 ?_
        rcases hsl.2 with h2 | ⟨s, hs, h2, h3⟩
        · exact Or.inl h2
        · exact Or.inr ⟨p, hpPS, h1, s, hs, h2, h3⟩
      · intro x hx
        rcases hx with hx | ⟨s, hs, hxs, hsl'⟩
        · exact Or.inl (le_trans (jsTrim_length_le x) hx)
        · exact Or.inr ⟨p, hpPS, h1, s, hs, by rw [hxs], hsl'⟩
      · intro c hc
        rcases mem_pushIf hc with h2 | h2
        · exact hchunks c h2
        · rw [h2]; exact htrimP cur hcur
      · exact Or.inl (by simp)
    · rw [if_neg h1]
      by_cases h2 : (cur ++ '\n' :: '\n' :: p).length > maxChars
      · rw [if_pos h2]
        refine ih _ _ hsub' ?_ (Or.inl (by omega))
        intro c hc
        rcases mem_pushIf hc with h3 | h3
        · exact hchunks c h3
        · rw [h3]; exact htrimP cur hcur
      · rw [if_neg h2]
        have hle : cur.length + 2 + p.length ≤ maxChars := by
          simp only [List.length_append, List.length_cons] at h2; omega
        refine ih _ _ hsub' hchunks ?_
        by_cases hc : cur = []
        · rw [if_pos hc]
          exact Or.inl (by omega)
        · rw [if_neg hc]
          refine Or.inl ?_
          simp only [List.length_append, List.length_cons]
          omega

/-- Claim C8 as amended: when the estimated token count exceeds the budget,
every returned chunk has character length at most maxTokens × 4 + 2 (the
`". "` sentence separator is appended without being counted by the greedy
overflow check, so packed chunks can exceed the budget by up to two
characters), except for a chunk that is the trim of a single sentence of an
oversized paragraph where that sentence alone exceeds the character budget —
such a sentence is emitted whole. -/
theorem claim_C8_amended (est : List Char → Nat) (content : List Char)
    (maxTokens : Nat) (h : maxTokens < est content) :
    ∀ c ∈ splitIntoChunks est content maxTokens,
      c.length ≤ maxTokens * 4 + 2 ∨
      ∃ p ∈ paragraphSplit content, maxTokens * 4 < p.length ∧
        ∃ s ∈ sentenceSplit p, c = jsTrim s ∧ maxTokens * 4 < s.length := by
  intro c hc
  unfold splitIntoChunks at hc
  rw [if_neg (by omega)] at hc
  simp only [] at hc
  by_cases hempty :
      pushIf (paragraphLoop (maxTokens * 4) (paragraphSplit content) [] []).1
        (paragraphLoop (maxTokens * 4) (paragraphSplit content) [] []).2 = []
  · rw [if_pos hempty] at hc
    exact Or.inl (le_trans (mem_sliceLoop_length hc) (by omega))
  · rw [if_neg hempty] at hc
    have hb := paragraphLoop_bound (maxTokens * 4) (paragraphSplit content)
      (paragraphSplit content) [] [] (fun p hp => hp)
      (by intro c hc; simp at hc) (Or.inl (by simp))
    rcases mem_pushIf hc with h1 | h1
    · exact hb.1 c h1
    · rcases hb.2 with h2 | ⟨p, hp, hpl, s, hs, h3, h4⟩
      · exact Or.inl (by rw [h1]; exact le_trans (jsTrim_length_le _) h2)
      · exact Or.inr ⟨p, hp, hpl, s, hs, by rw [h1, h3], h4⟩

theorem claim_C8_amended_witness :
    1 < (fun s : List Char => s.length) "abcdefgh".data ∧
    (∀ c ∈ splitIntoChunks (fun s : List Char => s.length) "abcdefgh".data 1,
      c.length ≤ 1 * 4 + 2 ∨
      ∃ p ∈ paragraphSplit "abcdefgh".data, 1 * 4 < p.length ∧
        ∃ s ∈ sentenceSplit p, c = jsTrim s ∧ 1 * 4 < s.length) :=
  ⟨by decide, claim_C8_amended _ _ _ (by decide)⟩

/-- Claim C8 is false as stated: the input "abcdefgh" (no paragraph or
sentence boundary) with budget maxTokens = 1 has estimated count 8 > 1, and
the chunker returns it as a single 8-character chunk, exceeding the per-chunk
character budget maxTokens × 4 = 4: an oversized sentence is emitted whole. -/
theorem claim_C8_counterexample :
    1 < (fun s : List Char => s.length) "abcdefgh".data ∧
    splitIntoChunks (fun s : List Char => s.length) "abcdefgh".data 1
      = ["abcdefgh".data] ∧
    4 < ("abcdefgh".data).length := by
  refine ⟨by decide, ?_, by decide⟩
  simp only [splitIntoChunks]
  norm_num
  simp [paragraphSplit, paragraphSplitAux, sentenceSplit, sentenceSplitAux,
    paragraphLoop, sentenceLoop, pushIf, jsTrim, sliceLoop, isSentTerm, isJsWs]


/-! Section: provider adapters (src/api/gemini.ts, src/api/openai.ts).

`summarize` is modelled as a pure run that, besides the returned summary,
records the trace of model calls (the prompt of each `generateContent`
invocation, in issue order). The source loop awaits each chunk call before
building the next one and builds the synthesis prompt from the collected
chunk summaries, so the i-th trace element is the i-th call issued and the
synthesis call is last, its prompt a function of every chunk call's result.
The network-backed `generateContent` is abstracted as the oracle `gen`.
A custom prompt is a `List Char` where `[]` stands for both JS `undefined`
and the empty string — the source only tests its truthiness
(`customPrompt ? ... : ...`), under which the two are indistinguishable.
JS `String.prototype.replace` with a string pattern replaces the first
occurrence; `$`-substitution patterns in the replacement value are not
modelled. -/

/-- First-occurrence string replacement (`template.replace(pat, rep)`). -/
def replaceOnce (pat rep : List Char) : List Char → List Char
  | [] => []
  | c :: rest =>
      if List.isPrefixOf pat (c :: rest) then rep ++ (c :: rest).drop pat.length
      else c :: replaceOnce pat rep rest

/-- Single-chunk prompt of `GeminiAPI.summarize`. -/
def geminiSinglePrompt (customPrompt content : List Char) : List Char :=
  if customPrompt = [] then
    "Please provide a concise and comprehensive summary of the following content:\n\n".data
      ++ content
  else replaceOnce "{content}".data content customPrompt

/-- Chunk prompt of `GeminiAPI.summarize` (`i` is the 0-based loop index). -/
def geminiChunkPrompt (i n : Nat) (chunk : List Char) : List Char :=
  "Please provide a concise summary of the following content (Part ".data
    ++ (toString (i + 1)).data ++ " of ".data ++ (toString n).data
    ++ "):\n\n".data ++ chunk
    ++ "\n\nFocus on key points, important details, and main ideas. Keep the summary concise but comprehensive.".data

/-- Embeds `chunkSummaries.join('\n\n---\n\n')`. -/
def joinedSummaries (summaries : List (List Char)) : List Char :=
  List.intercalate "\n\n---\n\n".data summaries

/-- Embeds `chunkSummaries.map((summary, idx) => "Part ${idx + 1}:\n" + summary)
.join('\n\n---\n\n')`. -/
def partLabeled (summaries : List (List Char)) : List Char :=
  List.intercalate "\n\n---\n\n".data
    (summaries.enum.map
      (fun p => "Part ".data ++ (toString (p.1 + 1)).data ++ ":\n".data ++ p.2))

/-- Synthesis prompt of `GeminiAPI.summarize`. -/
def geminiFinalPrompt (customPrompt : List Char)
    (summaries : List (List Char)) : List Char :=
  if customPrompt = [] then
    "I have summaries of different parts of a document. Please synthesize these into one coherent, comprehensive summary that covers all main points:\n\n".data
      ++ partLabeled summaries
      ++ "\n\nCreate a well-structured final summary that:\n1. Integrates all key points from the parts\n2. Removes redundancy\n3. Maintains logical flow\n4. Highlights the most important information".data
  else replaceOnce "{content}".data (joinedSummaries summaries) customPrompt

/-- Body of `GeminiAPI.summarize` after the budget computation: chunk the
content; one chunk → a single direct call; otherwise one call per chunk in
order followed by the synthesis call, whose result is returned. -/
def geminiSummarizeWithBudget (gen : List Char → List Char)
    (est : List Char → Nat) (maxInputTokens : Nat)
    (content customPrompt : List Char) : List Char × List (List Char) :=
  let chunks := splitIntoChunks est content maxInputTokens
  if chunks.length = 1 then
    (gen (geminiSinglePrompt customPrompt content),
     [geminiSinglePrompt customPrompt content])
  else
    let chunkPrompts :=
      chunks.enum.map (fun p => geminiChunkPrompt p.1 chunks.length p.2)
    let finalPrompt := geminiFinalPrompt customPrompt (chunkPrompts.map gen)
    (gen finalPrompt, chunkPrompts ++ [finalPrompt])

/-- Embeds `GeminiAPI.summarize(content, customPrompt)`: computes the budget from
the configured model (see `geminiMaxInputTokens`) and runs the body. -/
def geminiSummarizeRun (gen : List Char → List Char) (est : List Char → Nat)
    (model : String) (content customPrompt : List Char) :
    List Char × List (List Char) :=
  geminiSummarizeWithBudget gen est (geminiMaxInputTokens model) content customPrompt

/-- A chat message of the OpenAI API client. -/
structure OpenAIMessage where
  role : String
  content : List Char
deriving DecidableEq

/-- Messages of the single-chunk call of `OpenAIAPI.summarize`. -/
def openaiSingleMessages (customPrompt content : List Char) : List OpenAIMessage :=
  [⟨"system", "You are a helpful assistant that provides clear and concise summaries.".data⟩,
   ⟨"user",
    if customPrompt = [] then
      "Please provide a concise and comprehensive summary of the following content:\n\n".data
        ++ content
    else replaceOnce "{content}".data content customPrompt⟩]

/-- Messages of the i-th chunk call of `OpenAIAPI.summarize`. -/
def openaiChunkMessages (i n : Nat) (chunk : List Char) : List OpenAIMessage :=
  [⟨"system", "You are a helpful assistant that summarizes content.".data⟩,
   ⟨"user",
    "Please provide a concise summary of the following content (Part ".data
      ++ (toString (i + 1)).data ++ " of ".data ++ (toString n).data
      ++ "):\n\n".data ++ chunk
      ++ "\n\nFocus on key points, important details, and main ideas.".data⟩]

/-- Messages of the synthesis call of `OpenAIAPI.summarize`. -/
def openaiFinalMessages (customPrompt : List Char)
    (summaries : List (List Char)) : List OpenAIMessage :=
  [⟨"system", "You are a helpful assistant that synthesizes information.".data⟩,
   ⟨"user",
    if customPrompt = [] then
      "I have summaries of different parts of a document. Please synthesize these into one coherent, comprehensive summary that covers all main points:\n\n".data
        ++ partLabeled summaries
        ++ "\n\nCreate a well-structured final summary that:\n1. Integrates all key points from the parts\n2. Removes redundancy\n3. Maintains logical flow\n4. Highlights the most important information".data
    else replaceOnce "{content}".data (joinedSummaries summaries) customPrompt⟩]

/-- Body of `OpenAIAPI.summarize` after the budget computation. -/
def openaiSummarizeWithBudget (gen : List OpenAIMessage → List Char)
    (est : List Char → Nat) (maxInputTokens : Nat)
    (content customPrompt : List Char) :
    List Char × List (List OpenAIMessage) :=
  let chunks := splitIntoChunks est content maxInputTokens
  if chunks.length = 1 then
    (gen (openaiSingleMessages customPrompt content),
     [openaiSingleMessages customPrompt content])
  else
    let chunkCalls :=
      chunks.enum.map (fun p => openaiChunkMessages p.1 chunks.length p.2)
    let finalCall := openaiFinalMessages customPrompt (chunkCalls.map gen)
    (gen finalCall, chunkCalls ++ [finalCall])

/-- Embeds `OpenAIAPI.summarize(content, customPrompt)`. -/
def openaiSummarizeRun (gen : List OpenAIMessage → List Char)
    (est : List Char → Nat) (model : String)
    (content customPrompt : List Char) :
    List Char × List (List OpenAIMessage) :=
  openaiSummarizeWithBudget gen est (openaiMaxInputTokens model) content customPrompt



/-- The chunk prompts `GeminiAPI.summarize` issues, in source order. -/
def geminiChunkPromptList (est : List Char → Nat) (budget : Nat)
    (content : List Char) : List (List Char) :=
  (splitIntoChunks est content budget).enum.map
    (fun p => geminiChunkPrompt p.1 (splitIntoChunks est content budget).length p.2)

/-- The chunk calls `OpenAIAPI.summarize` issues, in source order. -/
def openaiChunkCallList (est : List Char → Nat) (budget : Nat)
    (content : List Char) : List (List OpenAIMessage) :=
  (splitIntoChunks est content budget).enum.map
    (fun p => openaiChunkMessages p.1 (splitIntoChunks est content budget).length p.2)

/-- Claim C5: when chunking yields n > 1 chunks, each provider adapter's
summarize issues exactly n + 1 model calls: the i-th call is the chunk
prompt for chunk i (source order — the sequential await in the source makes
trace order the issue order), the final (n+1-st) call is the synthesis
prompt built from all n chunk-call results, and the returned summary is the
synthesis call's result. Stated for the budget-parameterized bodies, which
the adapters invoke at their model budget (first two conjuncts). -/
theorem claim_C5_sequential_calls (gen : List Char → List Char)
    (genM : List OpenAIMessage → List Char) (est : List Char → Nat)
    (budget : Nat) (content customPrompt : List Char)
    (hn : 1 < (splitIntoChunks est content budget).length) :
    (∀ model, geminiSummarizeRun gen est model content customPrompt
      = geminiSummarizeWithBudget gen est (geminiMaxInputTokens model)
          content customPrompt) ∧
    (∀ model, openaiSummarizeRun genM est model content customPrompt
      = openaiSummarizeWithBudget genM est (openaiMaxInputTokens model)
          content customPrompt) ∧
    (geminiSummarizeWithBudget gen est budget content customPrompt).2.length
      = (splitIntoChunks est content budget).length + 1 ∧
    (∀ i c, (splitIntoChunks est content budget).get? i = some c →
      (geminiSummarizeWithBudget gen est budget content customPrompt).2.get? i
        = some (geminiChunkPrompt i (splitIntoChunks est content budget).length c)) ∧
    (geminiSummarizeWithBudget gen est budget content customPrompt).2.get?
        (splitIntoChunks est content budget).length
      = some (geminiFinalPrompt customPrompt
          ((geminiChunkPromptList est budget content).map gen)) ∧
    (geminiSummarizeWithBudget gen est budget content customPrompt).1
      = gen (geminiFinalPrompt customPrompt
          ((geminiChunkPromptList est budget content).map gen)) ∧
    (openaiSummarizeWithBudget genM est budget content customPrompt).2.length
      = (splitIntoChunks est content budget).length + 1 ∧
    (∀ i c, (splitIntoChunks est content budget).get? i = some c →
      (openaiSummarizeWithBudget genM est budget content customPrompt).2.get? i
        = some (openaiChunkMessages i (splitIntoChunks est content budget).length c)) ∧
    (openaiSummarizeWithBudget genM est budget content customPrompt).2.get?
        (splitIntoChunks est content budget).length
      = some (openaiFinalMessages customPrompt
          ((openaiChunkCallList est budget content).map genM)) ∧
    (openaiSummarizeWithBudget genM est budget content customPrompt).1
      = genM (openaiFinalMessages customPrompt
          ((openaiChunkCallList est budget content).map genM)) := by
  have hne1 : (splitIntoChunks est content budget).length ≠ 1 := by omega
  have hg : geminiSummarizeWithBudget gen est budget content customPrompt
      = (gen (geminiFinalPrompt customPrompt
            ((geminiChunkPromptList est budget content).map gen)),
         geminiChunkPromptList est budget content
           ++ [geminiFinalPrompt customPrompt
                ((geminiChunkPromptList est budget content).map gen)]) := by
    unfold geminiSummarizeWithBudget geminiChunkPromptList
    rw [if_neg hne1]
  have ho : openaiSummarizeWithBudget genM est budget content customPrompt
      = (genM (openaiFinalMessages customPrompt
            ((openaiChunkCallList est budget content).map genM)),
         openaiChunkCallList est budget content
           ++ [openaiFinalMessages customPrompt
                ((openaiChunkCallList est budget content).map genM)]) := by
    unfold openaiSummarizeWithBudget openaiChunkCallList
    rw [if_neg hne1]
  have hlg : (geminiChunkPromptList est budget content).length
      = (splitIntoChunks est content budget).length := by
    simp [geminiChunkPromptList]
  have hlo : (openaiChunkCallList est budget content).length
      = (splitIntoChunks est content budget).length := by
    simp [openaiChunkCallList]
  refine ⟨fun model => rfl, fun model => rfl, ?_, ?_, ?_, ?_, ?_, ?_, ?_, ?_⟩
  · rw [hg]; simp [hlg]
  · intro i c hc
    have hi : i < (splitIntoChunks est content budget).length := by
      rcases List.get?_eq_some.mp hc with ⟨hlt, _⟩
      exact hlt
    rw [hg]
    simp only []
    rw [List.get?_append (by omega : i < (geminiChunkPromptList est budget content).length)]
    unfold geminiChunkPromptList
    rw [List.get?_map, List.enum_get?, hc]
    rfl
  · rw [hg]
    simp only []
    conv_lhs => rw [← hlg]
    exact List.get?_concat_length _ _
  · rw [hg]
  · rw [ho]; simp [hlo]
  · intro i c hc
    have hi : i < (splitIntoChunks est content budget).length := by
      rcases List.get?_eq_some.mp hc with ⟨hlt, _⟩
      exact hlt
    rw [ho]
    simp only []
    rw [List.get?_append (by omega : i < (openaiChunkCallList est budget content).length)]
    unfold openaiChunkCallList
    rw [List.get?_map, List.enum_get?, hc]
    rfl
  · rw [ho]
    simp only []
    conv_lhs => rw [← hlo]
    exact List.get?_concat_length _ _
  · rw [ho]


theorem claim_C5_sequential_calls_witness :
    1 < (splitIntoChunks (fun s : List Char => s.length)
          "aa\n\nbb\n\ncc\n\ndd".data 1).length ∧
    (geminiSummarizeWithBudget (fun _ => "G".data)
        (fun s : List Char => s.length) 1 "aa\n\nbb\n\ncc\n\ndd".data []).2.length
      = (splitIntoChunks (fun s : List Char => s.length)
          "aa\n\nbb\n\ncc\n\ndd".data 1).length + 1 := by
  have hev : splitIntoChunks (fun s : List Char => s.length)
      "aa\n\nbb\n\ncc\n\ndd".data 1
      = ["aa".data, "bb".data, "cc".data, "dd".data] := by
    simp only [splitIntoChunks]
    norm_num
    simp [paragraphSplit, paragraphSplitAux, sentenceSplit, sentenceSplitAux,
      paragraphLoop, sentenceLoop, pushIf, jsTrim, sliceLoop, isSentTerm, isJsWs]
  have hn : 1 < (splitIntoChunks (fun s : List Char => s.length)
      "aa\n\nbb\n\ncc\n\ndd".data 1).length := by
    rw [hev]; decide
  exact ⟨hn,
    (claim_C5_sequential_calls (fun _ => "G".data) (fun _ => "O".data)
      (fun s : List Char => s.length) 1 "aa\n\nbb\n\ncc\n\ndd".data [] hn).2.2.1⟩


/-! Section: prompt resolver and per-tab coordinator (src/entrypoints/background.ts). -/

/-- A saved prompt (`CustomPrompt` of src/utils/constants.ts). -/
structure SavedPrompt where
  id : String
  name : String
  content : String
deriving DecidableEq

inductive ApiProvider where
  | gemini
  | openai
deriving DecidableEq

/-- The settings fields `handleSummarize` and the resolver read.
`StorageManager.getSettings` always supplies `savedPrompts` (defaulting to
the presets) and `defaultPromptId`, and a JS array is truthy even when
empty, so `settings.savedPrompts && settings.defaultPromptId` reduces to
`defaultPromptId` being non-empty. -/
structure Settings where
  apiProvider : ApiProvider
  geminiApiKey : String
  openaiApiKey : String
  geminiModel : String
  openaiModel : String
  savedPrompts : List SavedPrompt
  defaultPromptId : String
deriving DecidableEq

/-- Embeds `getPromptConfigFromSaved(promptText, promptId, settings)` from
src/entrypoints/background.ts: `promptText || \'\'` and `promptId || \'\'`
normalise absent arguments to the empty string; an explicit non-empty text
wins; otherwise a non-empty id is looked up in savedPrompts and a found
entry contributes its content; if the text is still empty the default
prompt id is looked up and a found entry contributes its content and id. -/
def getPromptConfigFromSaved (promptText promptId : Option String)
    (settings : Settings) : String × String :=
  let resolvedPromptText := promptText.getD ""
  let resolvedPromptId := promptId.getD ""
  if resolvedPromptText = "" then
    let afterId :=
      if resolvedPromptId ≠ "" then
        match settings.savedPrompts.find? (fun p => p.id == resolvedPromptId) with
        | some savedPrompt => savedPrompt.content
        | none => resolvedPromptText
      else resolvedPromptText
    if afterId = "" then
      if settings.defaultPromptId ≠ "" then
        match settings.savedPrompts.find?
            (fun p => p.id == settings.defaultPromptId) with
        | some defaultPrompt => (defaultPrompt.content, defaultPrompt.id)
        | none => (afterId, resolvedPromptId)
      else (afterId, resolvedPromptId)
    else (afterId, resolvedPromptId)
  else (resolvedPromptText, resolvedPromptId)

/-- The settings instance of the resolver examples in the claim. -/
def exSettings : Settings :=
  ⟨ApiProvider.gemini, "", "", "gemini-2.5-flash", "gpt-4o-mini",
   [⟨"a", "A", "X"⟩, ⟨"default", "D", "Y"⟩], "default"⟩

/-- Settings exhibiting the failure of claim C3: the saved prompt matched by
id has empty content. -/
def cexSettings : Settings :=
  ⟨ApiProvider.gemini, "", "", "gemini-2.5-flash", "gpt-4o-mini",
   [⟨"a", "A", ""⟩, ⟨"default", "D", "Y"⟩], "default"⟩

/-- Claim C3 is false as stated: with savedPrompts containing an entry
`{id:"a", content:""}` and a default prompt `{id:"default", content:"Y"}`,
`resolve(undefined, "a")` matches the entry "a" but does not return its
content "" — the empty content falls through to the default prompt and "Y"
is returned. -/
theorem claim_C3_counterexample :
    cexSettings.savedPrompts.find? (fun p => p.id == "a")
      = some ⟨"a", "A", ""⟩ ∧
    (getPromptConfigFromSaved none (some "a") cexSettings).1 = "Y" ∧
    ("Y" : String) ≠ "" := by
  decide

/-- Claim C3 as amended: the resolver is a pure function of
(text, id, settings) with first-match-wins precedence, where a savedPrompts
entry matched by id contributes its content only when that content is
non-empty — an empty content falls through to the default-prompt lookup.
The three examples of the claim hold as stated. -/
theorem claim_C3_amended (settings : Settings)
    (promptText promptId : Option String) :
    (promptText.getD "" ≠ "" →
      getPromptConfigFromSaved promptText promptId settings
        = (promptText.getD "", promptId.getD "")) ∧
    (∀ p : SavedPrompt, promptText.getD "" = "" → promptId.getD "" ≠ "" →
      settings.savedPrompts.find? (fun q => q.id == promptId.getD "")
        = some p →
      p.content ≠ "" →
      getPromptConfigFromSaved promptText promptId settings
        = (p.content, promptId.getD "")) ∧
    (∀ dp : SavedPrompt, promptText.getD "" = "" →
      (promptId.getD "" = "" ∨
        settings.savedPrompts.find? (fun q => q.id == promptId.getD "") = none ∨
        (∃ p : SavedPrompt,
          settings.savedPrompts.find? (fun q => q.id == promptId.getD "")
            = some p ∧ p.content = "")) →
      settings.defaultPromptId ≠ "" →
      settings.savedPrompts.find? (fun q => q.id == settings.defaultPromptId)
        = some dp →
      getPromptConfigFromSaved promptText promptId settings
        = (dp.content, dp.id)) ∧
    (promptText.getD "" = "" →
      (promptId.getD "" = "" ∨
        settings.savedPrompts.find? (fun q => q.id == promptId.getD "") = none ∨
        (∃ p : SavedPrompt,
          settings.savedPrompts.find? (fun q => q.id == promptId.getD "")
            = some p ∧ p.content = "")) →
      (settings.defaultPromptId = "" ∨
        settings.savedPrompts.find?
          (fun q => q.id == settings.defaultPromptId) = none) →
      getPromptConfigFromSaved promptText promptId settings
        = ("", promptId.getD "")) ∧
    (getPromptConfigFromSaved (some "Z") none exSettings).1 = "Z" ∧
    (getPromptConfigFromSaved none (some "a") exSettings).1 = "X" ∧
    (getPromptConfigFromSaved none none exSettings).1 = "Y" := by
  refine ⟨?_, ?_, ?_, ?_, by decide, by decide, by decide⟩
  · intro ht
    unfold getPromptConfigFromSaved
    rw [if_neg ht]
  · intro p ht hi hfind hc
    unfold getPromptConfigFromSaved
    rw [if_pos ht, if_pos hi, hfind]
    rw [if_neg hc]
  · intro dp ht hno hd hfind
    unfold getPromptConfigFromSaved
    rw [ht, if_pos rfl]
    have hafter :
        (if promptId.getD "" ≠ "" then
          match settings.savedPrompts.find?
              (fun q => q.id == promptId.getD "") with
          | some savedPrompt => savedPrompt.content
          | none => ""
         else "") = "" := by
      rcases hno with h | h | ⟨p, hp, hpc⟩
      · rw [if_neg (by simp [h])]
      · by_cases hi : promptId.getD "" ≠ ""
        · rw [if_pos hi, h]
        · rw [if_neg hi]
      · by_cases hi : promptId.getD "" ≠ ""
        · rw [if_pos hi, hp]
          exact hpc
        · rw [if_neg hi]
    rw [hafter, if_pos rfl, if_pos hd, hfind]
  · intro ht hno hd
    unfold getPromptConfigFromSaved
    rw [ht, if_pos rfl]
    have hafter :
        (if promptId.getD "" ≠ "" then
          match settings.savedPrompts.find?
              (fun q => q.id == promptId.getD "") with
          | some savedPrompt => savedPrompt.content
          | none => ""
         else "") = "" := by
      rcases hno with h | h | ⟨p, hp, hpc⟩
      · rw [if_neg (by simp [h])]
      · by_cases hi : promptId.getD "" ≠ ""
        · rw [if_pos hi, h]
        · rw [if_neg hi]
      · by_cases hi : promptId.getD "" ≠ ""
        · rw [if_pos hi, hp]
          exact hpc
        · rw [if_neg hi]
    rw [hafter, if_pos rfl]
    rcases hd with h | h
    · rw [if_neg (by simp [h])]
    · by_cases hdd : settings.defaultPromptId ≠ ""
      · rw [if_pos hdd, h]
      · rw [if_neg hdd]

theorem claim_C3_amended_witness :
    (some "Z" : Option String).getD "" ≠ "" ∧
    getPromptConfigFromSaved (some "Z") none exSettings = ("Z", "") :=
  ⟨by decide, (claim_C3_amended exSettings (some "Z") none).1 (by decide)⟩


theorem alookup_aset {κ α : Type} [DecidableEq κ] (l : List (κ × α))
    (k : κ) (v : α) : alookup (aset l k v) k = some v := by
  induction l with
  | nil => simp [aset, alookup]
  | cons p rest ih =>
    rcases p with ⟨k₁, v₁⟩
    unfold aset
    by_cases h : k₁ = k
    · rw [if_pos h]
      simp [alookup]
    · rw [if_neg h]
      rw [alookup, if_neg h]
      exact ih

/-- The extracted page snapshot attached to a tab state. -/
structure PageContent where
  content : String
  url : String
  title : String
deriving DecidableEq

/-- Embeds `TabState` from src/entrypoints/background.ts. -/
structure TabState where
  isLoading : Bool
  summary : Option String
  error : Option String
  pageContent : Option PageContent
deriving DecidableEq

/-- The lazily-created fresh state of `TabStateManager.getState`. -/
def initialTabState : TabState := ⟨false, none, none, none⟩

/-- Embeds `TabStateManager.getState(tabId)`: returns the existing state, or
inserts and returns a fresh empty one. The per-tab map (a JS `Map`) is an
association list with insertion-order append; the possibly-extended map is
returned alongside. -/
def TabStateManager_getState (states : List (Nat × TabState)) (tabId : Nat) :
    TabState × List (Nat × TabState) :=
  match alookup states tabId with
  | some st => (st, states)
  | none => (initialTabState, aset states tabId initialTabState)

/-- A partial update as passed to `TabStateManager.updateState`: `none`
means the field is absent from the update object and keeps its value. -/
structure TabStateUpdate where
  isLoading : Option Bool
  summary : Option (Option String)
  error : Option (Option String)
  pageContent : Option (Option PageContent)

/-- Embeds the JS spread merge of `currentState` and `update`. -/
def applyUpdate (st : TabState) (u : TabStateUpdate) : TabState :=
  ⟨u.isLoading.getD st.isLoading, u.summary.getD st.summary,
   u.error.getD st.error, u.pageContent.getD st.pageContent⟩

/-- The two best-effort channels `broadcastState` posts to. -/
inductive Channel where
  | runtime
  | tab
deriving DecidableEq

/-- One `summarizationStateUpdated` message. -/
structure BroadcastMsg where
  channel : Channel
  tabId : Nat
  state : TabState
deriving DecidableEq

/-- Embeds `TabStateManager.updateState(tabId, update)`: merge the update into the
current state, store it, and broadcast the merged state on both channels
(delivery failures are swallowed and not modelled). -/
def TabStateManager_updateState (states : List (Nat × TabState))
    (broadcasts : List BroadcastMsg) (tabId : Nat) (u : TabStateUpdate) :
    List (Nat × TabState) × List BroadcastMsg :=
  let g := TabStateManager_getState states tabId
  let newState := applyUpdate g.1 u
  (aset g.2 tabId newState,
   broadcasts ++ [⟨Channel.runtime, tabId, newState⟩,
                  ⟨Channel.tab, tabId, newState⟩])

/-- A `summarize` request (`SummarizeRequest` of background.ts).
`forceRefresh?: boolean` is tested only for truthiness, so absent and
`false` are modelled alike. -/
structure SummarizeRequest where
  content : String
  url : String
  title : String
  forceRefresh : Bool
  promptText : Option String
  promptId : Option String
deriving DecidableEq

/-- A provider-adapter `summarize` invocation recorded by the run. -/
structure ProviderCall where
  provider : ApiProvider
  apiKey : String
  model : String
  content : String
  prompt : String
deriving DecidableEq

/-- The mutable world `handleSummarize` touches: the per-tab state map, the
emitted broadcasts, the cache store, and the log of provider-adapter calls
issued. -/
structure BgState where
  tabStates : List (Nat × TabState)
  broadcasts : List BroadcastMsg
  cache : CacheStore
  providerCalls : List ProviderCall
deriving DecidableEq

/-- Embeds the message `Please configure your PROVIDER API key in
settings`. -/
def configErrorMsg (p : ApiProvider) : String :=
  "Please configure your " ++
    (match p with
     | ApiProvider.gemini => "GEMINI"
     | ApiProvider.openai => "OPENAI") ++ " API key in settings"

/-- Embeds `handleSummarize(request, tabId)` from src/entrypoints/background.ts,
as a pure transition on `BgState`. The network-backed adapter calls
(`GeminiAPI.summarize` / `OpenAIAPI.summarize`) are abstracted as the
oracles `gemini`/`openai` (apiKey → model → content → prompt → result) and
every invocation is logged. The returned `Except` is the promise outcome:
`ok` is the `{summary}` response, `error` a thrown error whose message the
message-listener boundary turns into an `{error}` response. Control flow:
an in-flight tab short-circuits with the current summary; otherwise the
state is set loading, the prompt resolved, the cache consulted (unless
forceRefresh; an empty cached string is falsy and treated as a miss), a
missing API key throws the configuration error before any adapter call,
and otherwise the adapter result is cached (when non-empty) and stored. -/
def handleSummarize
    (gemini openai : String → String → String → String → Except String String)
    (settings : Settings) (now : Int) (s : BgState) (req : SummarizeRequest)
    (tabId : Nat) : Except String (Option String) × BgState :=
  let g := TabStateManager_getState s.tabStates tabId
  if g.1.isLoading then
    (Except.ok g.1.summary, { s with tabStates := g.2 })
  else
    let u₁ := TabStateManager_updateState g.2 s.broadcasts tabId
      ⟨some true, none, some none, some (some ⟨req.content, req.url, req.title⟩)⟩
    let rp := getPromptConfigFromSaved req.promptText req.promptId settings
    let cg := if !req.forceRefresh
      then CacheManager_get s.cache now req.url (some rp.2)
      else (none, s.cache)
    let summary0 : Option String :=
      match cg.1 with
      | some c => if c ≠ "" then some c else none
      | none => none
    match summary0 with
    | some c =>
      let u₂ := TabStateManager_updateState u₁.1 u₁.2 tabId
        ⟨some false, some (some c), none, none⟩
      (Except.ok (some c), ⟨u₂.1, u₂.2, cg.2, s.providerCalls⟩)
    | none =>
      let apiKey := match settings.apiProvider with
        | ApiProvider.gemini => settings.geminiApiKey
        | ApiProvider.openai => settings.openaiApiKey
      if apiKey = "" then
        let msg := configErrorMsg settings.apiProvider
        let u₂ := TabStateManager_updateState u₁.1 u₁.2 tabId
          ⟨some false, none, some (some msg), none⟩
        (Except.error msg, ⟨u₂.1, u₂.2, cg.2, s.providerCalls⟩)
      else
        let model := match settings.apiProvider with
          | ApiProvider.gemini => settings.geminiModel
          | ApiProvider.openai => settings.openaiModel
        let callResult := match settings.apiProvider with
          | ApiProvider.gemini => gemini apiKey model req.content rp.1
          | ApiProvider.openai => openai apiKey model req.content rp.1
        let calls := s.providerCalls
          ++ [⟨settings.apiProvider, apiKey, model, req.content, rp.1⟩]
        match callResult with
        | Except.ok sum =>
          let cache2 := if sum ≠ ""
            then CacheManager_set cg.2 now req.url sum (some rp.2)
            else cg.2
          let u₂ := TabStateManager_updateState u₁.1 u₁.2 tabId
            ⟨some false, some (some sum), none, none⟩
          (Except.ok (some sum), ⟨u₂.1, u₂.2, cache2, calls⟩)
        | Except.error e =>
          let msg := if e = "" then "Failed to generate summary" else e
          let u₂ := TabStateManager_updateState u₁.1 u₁.2 tabId
            ⟨some false, none, some (some msg), none⟩
          (Except.error e, ⟨u₂.1, u₂.2, cg.2, calls⟩)

/-- The `{summary}` / `{error}` response as assembled at the
`browser.runtime.onMessage` boundary (background.ts lines 132-142): a
resolved promise answers `{summary}`, a rejected one `{error: message}`. -/
structure SummarizeResponse where
  summary : Option String
  error : Option String
deriving DecidableEq

def routerResponse : Except String (Option String) → SummarizeResponse
  | Except.ok s => ⟨s, none⟩
  | Except.error e => ⟨none, some e⟩


theorem alookup_updateState (states : List (Nat × TabState))
    (b : List BroadcastMsg) (tabId : Nat) (u : TabStateUpdate) :
    alookup (TabStateManager_updateState states b tabId u).1 tabId
      = some (applyUpdate (TabStateManager_getState states tabId).1 u) := by
  simp only [TabStateManager_updateState]
  exact alookup_aset _ _ _

theorem getState_of_lookup {states : List (Nat × TabState)} {tabId : Nat}
    {st : TabState} (h : alookup states tabId = some st) :
    TabStateManager_getState states tabId = (st, states) := by
  unfold TabStateManager_getState
  rw [h]

theorem getState_snd_lookup (states : List (Nat × TabState)) (tabId : Nat) :
    alookup (TabStateManager_getState states tabId).2 tabId
      = some (TabStateManager_getState states tabId).1 := by
  unfold TabStateManager_getState
  cases hl : alookup states tabId with
  | some st => simp only [hl]
  | none => simp [alookup_aset]

/-- Claim C1: a summarize request for a tab whose state has isLoading true
returns immediately with the tab's current (possibly absent) summary as the
response, and invokes no provider adapter call — the call log is unchanged
and the result is a success, not an error. -/
theorem claim_C1_single_flight
    (gemini openai : String → String → String → String → Except String String)
    (settings : Settings) (now : Int) (s : BgState) (req : SummarizeRequest)
    (tabId : Nat)
    (h : (TabStateManager_getState s.tabStates tabId).1.isLoading = true) :
    (handleSummarize gemini openai settings now s req tabId).1
      = Except.ok (TabStateManager_getState s.tabStates tabId).1.summary ∧
    (handleSummarize gemini openai settings now s req tabId).2.providerCalls
      = s.providerCalls := by
  simp [handleSummarize, h]

theorem claim_C1_single_flight_witness :
    (TabStateManager_getState
        [(1, (⟨true, some "S", none, none⟩ : TabState))] 1).1.isLoading = true ∧
    ((handleSummarize (fun _ _ _ _ => Except.ok "X") (fun _ _ _ _ => Except.ok "X")
        exSettings 0
        ⟨[(1, ⟨true, some "S", none, none⟩)], [], [], []⟩
        ⟨"c", "u", "t", false, none, none⟩ 1).1
      = Except.ok (TabStateManager_getState
          [(1, (⟨true, some "S", none, none⟩ : TabState))] 1).1.summary ∧
     (handleSummarize (fun _ _ _ _ => Except.ok "X") (fun _ _ _ _ => Except.ok "X")
        exSettings 0
        ⟨[(1, ⟨true, some "S", none, none⟩)], [], [], []⟩
        ⟨"c", "u", "t", false, none, none⟩ 1).2.providerCalls = []) :=
  ⟨by decide,
   claim_C1_single_flight (fun _ _ _ _ => Except.ok "X")
     (fun _ _ _ _ => Except.ok "X") exSettings 0
     ⟨[(1, ⟨true, some "S", none, none⟩)], [], [], []⟩
     ⟨"c", "u", "t", false, none, none⟩ 1 (by decide)⟩

/-- Claim C10: when a summarize request is rejected because the tab is
already loading, the per-tab state map and the broadcast log are unchanged —
`TabStateManager.updateState`, the only mutator and broadcaster, is never
reached on that path. -/
theorem claim_C10_frame
    (gemini openai : String → String → String → String → Except String String)
    (settings : Settings) (now : Int) (s : BgState) (req : SummarizeRequest)
    (tabId : Nat)
    (h : (TabStateManager_getState s.tabStates tabId).1.isLoading = true) :
    (handleSummarize gemini openai settings now s req tabId).2.tabStates
      = s.tabStates ∧
    (handleSummarize gemini openai settings now s req tabId).2.broadcasts
      = s.broadcasts := by
  have hg2 : (TabStateManager_getState s.tabStates tabId).2 = s.tabStates := by
    unfold TabStateManager_getState
    cases hl : alookup s.tabStates tabId with
    | some st => rfl
    | none =>
      exfalso
      unfold TabStateManager_getState at h
      rw [hl] at h
      simp [initialTabState] at h
  constructor
  · simp only [handleSummarize, h, if_true]
    exact hg2
  · simp [handleSummarize, h]

theorem claim_C10_frame_witness :
    (TabStateManager_getState
        [(1, (⟨true, none, none, none⟩ : TabState))] 1).1.isLoading = true ∧
    ((handleSummarize (fun _ _ _ _ => Except.ok "X") (fun _ _ _ _ => Except.ok "X")
        exSettings 0
        ⟨[(1, ⟨true, none, none, none⟩)], [], [], []⟩
        ⟨"c", "u", "t", false, none, none⟩ 1).2.tabStates
      = [(1, ⟨true, none, none, none⟩)] ∧
     (handleSummarize (fun _ _ _ _ => Except.ok "X") (fun _ _ _ _ => Except.ok "X")
        exSettings 0
        ⟨[(1, ⟨true, none, none, none⟩)], [], [], []⟩
        ⟨"c", "u", "t", false, none, none⟩ 1).2.broadcasts = []) :=
  ⟨by decide,
   claim_C10_frame (fun _ _ _ _ => Except.ok "X") (fun _ _ _ _ => Except.ok "X")
     exSettings 0 ⟨[(1, ⟨true, none, none, none⟩)], [], [], []⟩
     ⟨"c", "u", "t", false, none, none⟩ 1 (by decide)⟩

/-- Claim C9 is false as stated: with no API key configured for the active
provider (gemini key empty) but a fresh cached summary for the requested
(url, resolved prompt id), `handleSummarize` answers `{summary: "S"}` from
the cache — not a configuration error — and attempts no provider call. The
store key is `ai_summary_cache_` + simpleHash("u") + `_default`, where
simpleHash("u") = "39". -/
theorem claim_C9_counterexample :
    (handleSummarize (fun _ _ _ _ => Except.error "net")
        (fun _ _ _ _ => Except.error "net")
        ⟨ApiProvider.gemini, "", "", "m1", "m2", [], ""⟩ 0
        ⟨[], [], [("ai_summary_cache_39_default", ⟨"S", 0, "u", ""⟩)], []⟩
        ⟨"body", "u", "t", false, none, none⟩ 1).1
      = Except.ok (some "S") ∧
    (routerResponse (handleSummarize (fun _ _ _ _ => Except.error "net")
        (fun _ _ _ _ => Except.error "net")
        ⟨ApiProvider.gemini, "", "", "m1", "m2", [], ""⟩ 0
        ⟨[], [], [("ai_summary_cache_39_default", ⟨"S", 0, "u", ""⟩)], []⟩
        ⟨"body", "u", "t", false, none, none⟩ 1).1).error = none ∧
    (⟨ApiProvider.gemini, "", "", "m1", "m2", [], ""⟩ : Settings).geminiApiKey
      = "" := by
  exact ⟨rfl, rfl, rfl⟩

/-- Claim C9 as amended: for a summarize request on a tab that is not
already loading, when the request forces a refresh or the cache lookup for
(url, resolved prompt id) yields nothing, and no API key is configured for
the active provider, the response is `{error: configuration message}`, no
provider adapter call is made (the call log is unchanged), and afterwards
the tab state holds the configuration message in `error` with `isLoading`
false. (As stated the claim also covered cache hits, where the code serves
the cached summary without needing a key.) -/
theorem claim_C9_amended
    (gemini openai : String → String → String → String → Except String String)
    (settings : Settings) (now : Int) (s : BgState) (req : SummarizeRequest)
    (tabId : Nat)
    (h1 : (TabStateManager_getState s.tabStates tabId).1.isLoading = false)
    (h2 : (match settings.apiProvider with
           | ApiProvider.gemini => settings.geminiApiKey
           | ApiProvider.openai => settings.openaiApiKey) = "")
    (h3 : req.forceRefresh = true ∨
      (CacheManager_get s.cache now req.url
        (some (getPromptConfigFromSaved req.promptText req.promptId settings).2)).1
        = none) :
    routerResponse (handleSummarize gemini openai settings now s req tabId).1
      = ⟨none, some (configErrorMsg settings.apiProvider)⟩ ∧
    (handleSummarize gemini openai settings now s req tabId).2.providerCalls
      = s.providerCalls ∧
    alookup (handleSummarize gemini openai settings now s req tabId).2.tabStates
        tabId
      = some ⟨false, (TabStateManager_getState s.tabStates tabId).1.summary,
              some (configErrorMsg settings.apiProvider),
              some ⟨req.content, req.url, req.title⟩⟩ := by
  have hcg1 : (if !req.forceRefresh
      then CacheManager_get s.cache now req.url
        (some (getPromptConfigFromSaved req.promptText req.promptId settings).2)
      else ((none : Option String), s.cache)).1 = none := by
    rcases h3 with hf | hc
    · rw [hf]; rfl
    · by_cases hf : req.forceRefresh
      · rw [hf]; rfl
      · simp only [Bool.not_eq_true] at hf
        rw [hf]
        exact hc
  simp only [handleSummarize, h1, Bool.false_eq_true, if_false, hcg1, h2, if_pos]
  refine ⟨by trivial, by trivial, ?_⟩
  rw [alookup_updateState]
  rw [getState_of_lookup (alookup_updateState _ _ _ _)]
  rw [getState_of_lookup (getState_snd_lookup s.tabStates tabId)]
  rfl

theorem claim_C9_amended_witness :
    (TabStateManager_getState ([] : List (Nat × TabState)) 1).1.isLoading
      = false ∧
    routerResponse (handleSummarize (fun _ _ _ _ => Except.error "net")
        (fun _ _ _ _ => Except.error "net")
        ⟨ApiProvider.gemini, "", "", "m1", "m2", [], ""⟩ 0 ⟨[], [], [], []⟩
        ⟨"c", "u", "t", false, none, none⟩ 1).1
      = ⟨none, some (configErrorMsg ApiProvider.gemini)⟩ ∧
    (handleSummarize (fun _ _ _ _ => Except.error "net")
        (fun _ _ _ _ => Except.error "net")
        ⟨ApiProvider.gemini, "", "", "m1", "m2", [], ""⟩ 0 ⟨[], [], [], []⟩
        ⟨"c", "u", "t", false, none, none⟩ 1).2.providerCalls = [] :=
  ⟨by decide,
   (claim_C9_amended (fun _ _ _ _ => Except.error "net")
      (fun _ _ _ _ => Except.error "net")
      ⟨ApiProvider.gemini, "", "", "m1", "m2", [], ""⟩ 0 ⟨[], [], [], []⟩
      ⟨"c", "u", "t", false, none, none⟩ 1 (by decide) (by decide)
      (Or.inr (by decide))).1,
   (claim_C9_amended (fun _ _ _ _ => Except.error "net")
      (fun _ _ _ _ => Except.error "net")
      ⟨ApiProvider.gemini, "", "", "m1", "m2", [], ""⟩ 0 ⟨[], [], [], []⟩
      ⟨"c", "u", "t", false, none, none⟩ 1 (by decide) (by decide)
      (Or.inr (by decide))).2.1⟩

end AISummary
